import Mathlib

/-!
Verification development for the `pdf2latex` pipeline (`final.py`,
class `PDFProcessor`).  The Python methods `fix_pdf`, `analyze_pdf` and
`generate_text` are shallowly embedded below; external effects
(rasterisation, the OSD orientation detector, the layout service, file
writes) are modelled as explicit inputs/outputs.  Python exceptions are
modelled with `Except String`; numeric computations are carried out in `ℚ`
(the Python code uses true division), with Python's `int()` truncation
modelled by integer truncated division.
-/

/-- Even-indexed entries of a list: models Python's `l[0::2]`. -/
def evens {α : Type} : List α → List α
  | [] => []
  | [x] => [x]
  | x :: _ :: rest => x :: evens rest

/-- Odd-indexed entries of a list: models Python's `l[1::2]`. -/
def odds {α : Type} : List α → List α
  | [] => []
  | _ :: rest => evens rest

/-- Python list indexing `l[i]`: non-negative indices from the front,
negative indices from the back; out of range is `none` (an `IndexError`). -/
def pythonIdx {α : Type} (l : List α) (i : ℤ) : Option α :=
  if 0 ≤ i then l.get? i.toNat
  else if 0 ≤ i + l.length then l.get? (i + l.length).toNat
  else none

/-- Python's `int()` applied to a rational: truncation toward zero. -/
def ratTrunc (q : ℚ) : ℤ := q.num / (q.den : ℤ)

/-- Python's `min` over a non-empty list (`none` on `[]`, where Python
raises `ValueError`). -/
def listMin : List ℚ → Option ℚ
  | [] => none
  | x :: rest =>
    match listMin rest with
    | none => some x
    | some m => some (min x m)

/-- Python's `max` over a non-empty list (`none` on `[]`). -/
def listMax : List ℚ → Option ℚ
  | [] => none
  | x :: rest =>
    match listMax rest with
    | none => some x
    | some m => some (max x m)

/-- Arithmetic mean of a list of rationals (`sum / len`). -/
def listMean (l : List ℚ) : ℚ := l.sum / (l.length : ℚ)

/-- Whether an `Except` computation succeeded. -/
def exceptIsOk {ε α : Type} : Except ε α → Bool
  | .ok _ => true
  | .error _ => false

/-! ## Geometry Corrector (`PDFProcessor.fix_pdf`) -/

/-- Pipeline configuration (constructor arguments of `PDFProcessor`). -/
structure PDFConfig where
  dpi : ℚ
  pad_px : ℕ
  white_thr : ℚ
deriving DecidableEq

/-- One input page of `fix_pdf`: the outcome of the external OSD
orientation detector on the page (`pytesseract.image_to_osd`, an angle or a
`TesseractError`), and the grayscale raster of the page after the rotation
step (`cv2.cvtColor(np.array(page), COLOR_RGB2GRAY)`), as a row-major grid
of intensities. -/
structure PageInput where
  osd : Except String ℤ
  gray : List (List ℚ)

/-- Mean intensity of row `i` of a grayscale grid (`g.mean(axis=1)[i]`). -/
def rowMean (g : List (List ℚ)) (i : ℕ) : ℚ := listMean (g.getD i [])

/-- Mean intensity of column `j` of a grayscale grid (`g.mean(axis=0)[j]`). -/
def colMean (g : List (List ℚ)) (j : ℕ) : ℚ :=
  listMean (g.map (fun row => row.getD j 0))

/-- Indices of rows whose mean intensity is below the whiteness threshold
(`np.where(r_mean < white_thr)[0]`). -/
def rIdx (g : List (List ℚ)) (white_thr : ℚ) : List ℕ :=
  (List.range g.length).filter (fun i => decide (rowMean g i < white_thr))

/-- Indices of columns whose mean intensity is below the whiteness
threshold (`np.where(c_mean < white_thr)[0]`). -/
def cIdx (g : List (List ℚ)) (white_thr : ℚ) : List ℕ :=
  (List.range (g.headD []).length).filter
    (fun j => decide (colMean g j < white_thr))

/-- The crop box emitted by `fix_pdf` for one page, as `(x1, y1, x2, y2)`:
present only when both some row and some column are below the whiteness
threshold; padded by `pad_px` and clamped to `[0, W-1] × [0, H-1]`. -/
def cropRect (g : List (List ℚ)) (white_thr : ℚ) (pad_px : ℕ) :
    Option (ℤ × ℤ × ℤ × ℤ) :=
  match (rIdx g white_thr).head?, (rIdx g white_thr).getLast?,
        (cIdx g white_thr).head?, (cIdx g white_thr).getLast? with
  | some y1, some y2, some x1, some x2 =>
      some (max ((x1 : ℤ) - pad_px) 0,
            max ((y1 : ℤ) - pad_px) 0,
            min ((x2 : ℤ) + pad_px) (((g.headD []).length : ℤ) - 1),
            min ((y2 : ℤ) + pad_px) ((g.length : ℤ) - 1))
  | _, _, _, _ => none

/-- The rotation applied by `fix_pdf`'s OSD step: `none` when the detector
failed (`TesseractError` - recoverable) or reported angle `0`; otherwise the
degree argument of `page.rotate(360 - angle, expand=True)` together with the
`expand` flag. -/
def osdRotation (osd : Except String ℤ) : Option (ℤ × Bool) :=
  match osd with
  | .error _ => none
  | .ok angle => if angle = 0 then none else some (360 - angle, true)

/-- The processed form of one page: the rotation that was applied (if any)
and the crop box that was applied (if any). -/
structure PageOut where
  rotation : Option (ℤ × Bool)
  cropBox : Option (ℤ × ℤ × ℤ × ℤ)
deriving DecidableEq

/-- Per-page body of the `fix_pdf` loop: OSD-based rotation, then
whitespace-bounded cropping. -/
def fixPage (cfg : PDFConfig) (p : PageInput) : PageOut :=
  { rotation := osdRotation p.osd
    cropBox := cropRect p.gray cfg.white_thr cfg.pad_px }

/-- Result of `fix_pdf`: the in-memory processed page sequence
(`self.processed_images`) and the corrected multi-page document
(`corrected.pdf`), which is only written when the page list is non-empty
(`if out_pages:`). -/
structure FixResult where
  processed : List PageOut
  corrected : Option (List PageOut)
deriving DecidableEq

/-- `PDFProcessor.fix_pdf`: process every page in order; save the corrected
document (first page with the rest appended, i.e. all processed pages in
order) only when at least one page exists.  Note there is no error path for
an empty input: the save is silently skipped. -/
def fix_pdf (cfg : PDFConfig) (inputs : List PageInput) : FixResult :=
  let out_pages := inputs.map (fixPage cfg)
  { processed := out_pages
    corrected := if out_pages.isEmpty then none else some out_pages }

/-! ## Layout data model (the external layout service's result) -/

/-- A bounding region of a paragraph or figure: a page reference plus
coordinates.  `analyze_pdf` reads `boundingRegions[i].get("boundingBox",
region.get("polygon", []))`; `generate_text` reads `polygon` directly.  An
absent `polygon` key is modelled by `[]` (both give the same behaviour in
the code: an empty coordinate list). -/
structure Region where
  pageNumber : ℤ
  boundingBox : Option (List ℚ)
  polygon : List ℚ
deriving DecidableEq

/-- A word entry of a page record (opaque service payload). -/
structure LWord where
  content : String
deriving DecidableEq

/-- A line entry of a page record (opaque service payload). -/
structure LLine where
  content : String
deriving DecidableEq

/-- A per-page record of the layout result (`layout["pages"][i]`). -/
structure PageRec where
  pageNumber : ℤ
  angle : ℚ
  width : ℚ
  height : ℚ
  unit : String
  words : List LWord
  lines : List LLine
deriving DecidableEq

/-- A paragraph entry of the layout result. -/
structure Para where
  content : String
  boundingRegions : List Region
deriving DecidableEq

/-- A figure entry of the layout result. -/
structure Fig where
  boundingRegions : List Region
deriving DecidableEq

/-- The layout-analysis result (`result.as_dict()`). -/
structure Layout where
  pages : List PageRec
  paragraphs : List Para
  figures : List Fig
deriving DecidableEq

/-- A processed page image as seen by `analyze_pdf`: its pixel size. -/
structure Img where
  width : ℕ
  height : ℕ
deriving DecidableEq

/-! ## Layout Normalizer (`PDFProcessor.analyze_pdf`, reconciliation) -/

/-- Lookup in the Python dict `{p["pageNumber"]: p for p in pages}`:
the LAST record with the given page number wins (later dict-comprehension
entries overwrite earlier ones); `none` when no record has that number. -/
def lookupPage (ps : List PageRec) (pg : ℤ) : Option PageRec :=
  ps.reverse.find? (fun p => p.pageNumber == pg)

/-- The placeholder record synthesized for a page ordinal missing from the
service output: angle 0, the page image's pixel dimensions divided by the
configured dpi, unit `"inch"`, empty word/line lists. -/
def mkPlaceholder (pg : ℤ) (img : Img) (dpi : ℚ) : PageRec :=
  { pageNumber := pg
    angle := 0
    width := (img.width : ℚ) / dpi
    height := (img.height : ℚ) / dpi
    unit := "inch"
    words := []
    lines := [] }

/-- Reconciliation loop of `analyze_pdf`: for every ordinal `pg` in
`1..total_pages` keep the service's record when one exists, otherwise
synthesize a placeholder from `processed_images[pg-1]`. -/
def reconcilePages (servicePages : List PageRec) (imgs : List Img)
    (dpi : ℚ) : List PageRec :=
  (List.range imgs.length).map (fun (i : ℕ) =>
    match lookupPage servicePages ((i : ℤ) + 1) with
    | some p => p
    | none => mkPlaceholder ((i : ℤ) + 1) (imgs.getD i ⟨0, 0⟩) dpi)

/-! ## Figure Extractor (`PDFProcessor.analyze_pdf`, figure loop) -/

/-- `pages_meta.get(pg, {})` followed by `meta.get("width", 1)` /
`meta.get("height", 1)`: the declared width/height of the page record for
`pg`, or `(1, 1)` when no record has that page number. -/
def resolveMetaWH (meta : List PageRec) (pg : ℤ) : ℚ × ℚ :=
  match lookupPage meta pg with
  | some p => (p.width, p.height)
  | none => (1, 1)

/-- The artifact file name `f"figure_&#123;pg&#125;_&#123;idx&#125;.png"` (path within
`fig_dir`). -/
def mkFigPath (pg : ℤ) (idx : ℕ) : String :=
  "figure_" ++ toString pg ++ "_" ++ toString idx ++ ".png"

/-- The clamped pixel crop rectangle `(x0, y0, x1, y1)` computed for one
bounding region: min/max of the coordinate x/y values divided by the page
record's declared width/height, scaled by the page raster's pixel size,
truncated to int, and clamped below at 0 (for `x0`, `y0`) and above at the
pixel size (for `x1`, `y1`).  Errors model Python exceptions: `ValueError`
from `min`/`max` of an empty sequence, `ZeroDivisionError` from a zero
declared dimension, `IndexError` from `processed_images[pg - 1]`. -/
def figRect (imgs : List Img) (meta : List PageRec) (region : Region) :
    Except String (ℤ × ℤ × ℤ × ℤ) :=
  let pg := region.pageNumber
  let wh := resolveMetaWH meta pg
  let coords := region.boundingBox.getD region.polygon
  let xs := evens coords
  let ys := odds coords
  match listMin xs, listMax xs, listMin ys, listMax ys with
  | some mnx, some mxx, some mny, some mxy =>
    if wh.1 = 0 ∨ wh.2 = 0 then .error "ZeroDivisionError"
    else
      match pythonIdx imgs (pg - 1) with
      | none => .error "IndexError: page image out of range"
      | some img =>
        let x0 := ratTrunc (mnx / wh.1 * (img.width : ℚ))
        let x1 := ratTrunc (mxx / wh.1 * (img.width : ℚ))
        let y0 := ratTrunc (mny / wh.2 * (img.height : ℚ))
        let y1 := ratTrunc (mxy / wh.2 * (img.height : ℚ))
        .ok (max 0 x0, max 0 y0, min (img.width : ℤ) x1,
             min (img.height : ℤ) y1)
  | _, _, _, _ => .error "ValueError: min of empty sequence"

/-- State threaded through the figure loop: the figure-index-to-path map
(`self.fig_paths_by_idx`, a dict keyed by the loop index, modelled as an
association list in insertion order) and the list of persisted artifacts
(the `crop.save(out_png)` calls, by path). -/
structure FigState where
  figMap : List (ℕ × String)
  artifacts : List String
deriving DecidableEq

/-- One iteration of the figure loop of `analyze_pdf` for figure `fig` at
list position `idx`: take the FIRST bounding region (an unguarded `[0]` -
`IndexError` when the list is empty), compute the clamped crop rectangle,
and if it has strictly positive width and height persist the artifact and
record it in the map; otherwise leave the state unchanged. -/
def figStep (imgs : List Img) (meta : List PageRec) (idx : ℕ) (fig : Fig)
    (st : FigState) : Except String FigState :=
  match fig.boundingRegions.head? with
  | none => .error "IndexError: boundingRegions is empty"
  | some region =>
    match figRect imgs meta region with
    | .error e => .error e
    | .ok (x0, y0, x1, y1) =>
      if x1 > x0 ∧ y1 > y0 then
        let path := mkFigPath region.pageNumber idx
        .ok { figMap := st.figMap ++ [(idx, path)]
              artifacts := st.artifacts ++ [path] }
      else .ok st

/-- The figure loop `for idx, fig in enumerate(figures)`, threading the
state and aborting on the first exception. -/
def extractFigsAux (imgs : List Img) (meta : List PageRec) :
    ℕ → List Fig → FigState → Except String FigState
  | _, [], st => .ok st
  | idx, fig :: rest, st =>
    match figStep imgs meta idx fig st with
    | .error e => .error e
    | .ok st' => extractFigsAux imgs meta (idx + 1) rest st'

/-- The whole figure-extraction loop, starting at index 0 with an empty
map. -/
def extractFigs (imgs : List Img) (meta : List PageRec) (figs : List Fig) :
    Except String FigState :=
  extractFigsAux imgs meta 0 figs { figMap := [], artifacts := [] }

/-- `PDFProcessor.analyze_pdf` on a service result: reconcile the per-page
records against the processed page count, then run figure extraction with
`pages_meta` rebuilt from the reconciled table.  Returns the reconciled
layout together with the figure map/artifacts, or the first exception. -/
def analyze_pdf (serviceLayout : Layout) (imgs : List Img) (dpi : ℚ) :
    Except String (Layout × FigState) :=
  let full_pages := reconcilePages serviceLayout.pages imgs dpi
  let layout := { serviceLayout with pages := full_pages }
  match extractFigs imgs full_pages layout.figures with
  | .error e => .error e
  | .ok st => .ok (layout, st)

/-! ## Reading-Order Assembler (`PDFProcessor.generate_text`) -/

/-- The two kinds of content element assembled by `generate_text`. -/
inductive ElemKind where
  | paragraph : ElemKind
  | figure : ElemKind
deriving DecidableEq

/-- A content element as built by `generate_text`: kind, source index,
sort-key fields and textual content. -/
structure Element where
  kind : ElemKind
  index : ℕ
  page : ℤ
  yCenter : ℚ
  xCenter : ℚ
  content : String
deriving DecidableEq

/-- `get_bounding_box_center`: page ordinal and the arithmetic means of the
region polygon's y-values and x-values (in that order, as the code returns
`(page, y_center, x_center)`).  Python raises `ZeroDivisionError` when the
x list (even entries) or y list (odd entries) is empty, i.e. when the
polygon has fewer than 2 entries. -/
def get_bounding_box_center (r : Region) : Except String (ℤ × ℚ × ℚ) :=
  let xs := evens r.polygon
  let ys := odds r.polygon
  if xs.length = 0 then .error "ZeroDivisionError"
  else if ys.length = 0 then .error "ZeroDivisionError"
  else .ok (r.pageNumber, listMean ys, listMean xs)

/-- The element built for paragraph `p` at source index `i` with first
region center `c`. -/
def mkParaElem (i : ℕ) (p : Para) (c : ℤ × ℚ × ℚ) : Element :=
  { kind := .paragraph
    index := i
    page := c.1
    yCenter := c.2.1
    xCenter := c.2.2
    content := p.content }

/-- `self.fig_paths_by_idx.get(fig_idx, '')`: dict lookup with default
empty string (last insertion wins). -/
def figPathLookup (figMap : List (ℕ × String)) (i : ℕ) : Option String :=
  (figMap.reverse.find? (fun kv => kv.1 == i)).map (fun kv => kv.2)

/-- The element built for the figure at source index `i` with first region
center `c`, given the figure-index-to-path map: its content is the marker
`"[FIGURE: <path>]"` with the empty string when no artifact was
recorded. -/
def mkFigElem (figMap : List (ℕ × String)) (i : ℕ) (c : ℤ × ℚ × ℚ) :
    Element :=
  { kind := .figure
    index := i
    page := c.1
    yCenter := c.2.1
    xCenter := c.2.2
    content := "[FIGURE: " ++ (figPathLookup figMap i).getD "" ++ "]" }

/-- The paragraph half of the element-collection loop, carrying the
enumeration index: paragraphs with an empty `boundingRegions` list are
skipped; otherwise the first region's center is computed (propagating a
Python exception). -/
def paraElemsAux : ℕ → List Para → Except String (List Element)
  | _, [] => .ok []
  | i, p :: rest =>
    match p.boundingRegions.head? with
    | none => paraElemsAux (i + 1) rest
    | some r =>
      match get_bounding_box_center r with
      | .error e => .error e
      | .ok c =>
        match paraElemsAux (i + 1) rest with
        | .error e => .error e
        | .ok es => .ok (mkParaElem i p c :: es)

/-- The figure half of the element-collection loop. -/
def figElemsAux (figMap : List (ℕ × String)) :
    ℕ → List Fig → Except String (List Element)
  | _, [] => .ok []
  | i, f :: rest =>
    match f.boundingRegions.head? with
    | none => figElemsAux figMap (i + 1) rest
    | some r =>
      match get_bounding_box_center r with
      | .error e => .error e
      | .ok c =>
        match figElemsAux figMap (i + 1) rest with
        | .error e => .error e
        | .ok es => .ok (mkFigElem figMap i c :: es)

/-- The full element list of `generate_text`: paragraph elements followed
by figure elements (the order in which the code appends them, before
sorting). -/
def elementsOf (layout : Layout) (figMap : List (ℕ × String)) :
    Except String (List Element) :=
  match paraElemsAux 0 layout.paragraphs with
  | .error e => .error e
  | .ok ps =>
    match figElemsAux figMap 0 layout.figures with
    | .error e => .error e
    | .ok fs => .ok (ps ++ fs)

/-- The sort relation of `elements.sort(key=lambda e: (e["page"],
e["y_center"], e["x_center"]))`: lexicographic comparison of the key
triples. -/
def elemRel (a b : Element) : Prop :=
  a.page < b.page ∨
    (a.page = b.page ∧
      (a.yCenter < b.yCenter ∨
        (a.yCenter = b.yCenter ∧ a.xCenter ≤ b.xCenter)))

instance : DecidableRel elemRel := fun a b => by
  unfold elemRel
  infer_instance

instance : IsTotal Element elemRel where
  total a b := by
    unfold elemRel
    rcases lt_trichotomy a.page b.page with h | h | h
    · exact Or.inl (Or.inl h)
    · rcases lt_trichotomy a.yCenter b.yCenter with h2 | h2 | h2
      · exact Or.inl (Or.inr ⟨h, Or.inl h2⟩)
      · rcases le_total a.xCenter b.xCenter with h3 | h3
        · exact Or.inl (Or.inr ⟨h, Or.inr ⟨h2, h3⟩⟩)
        · exact Or.inr (Or.inr ⟨h.symm, Or.inr ⟨h2.symm, h3⟩⟩)
      · exact Or.inr (Or.inr ⟨h.symm, Or.inl h2⟩)
    · exact Or.inr (Or.inl h)

instance : IsTrans Element elemRel where
  trans a b c hab hbc := by
    unfold elemRel at hab hbc ⊢
    rcases hab with h1 | ⟨h1, h1'⟩
    · rcases hbc with h2 | ⟨h2, _⟩
      · exact Or.inl (h1.trans h2)
      · exact Or.inl (h2 ▸ h1)
    · rcases hbc with h2 | ⟨h2, h2'⟩
      · exact Or.inl (h1 ▸ h2)
      · refine Or.inr ⟨h1.trans h2, ?_⟩
        rcases h1' with h3 | ⟨h3, h3'⟩
        · rcases h2' with h4 | ⟨h4, _⟩
          · exact Or.inl (h3.trans h4)
          · exact Or.inl (h4 ▸ h3)
        · rcases h2' with h4 | ⟨h4, h4'⟩
          · exact Or.inl (h3 ▸ h4)
          · exact Or.inr ⟨h3.trans h4, h3'.trans h4'⟩

/-- The sorted element list (`elements.sort(...)`; Python's sort is a
stable sort, modelled by insertion sort over the lexicographic key
relation). -/
def sortedElements (layout : Layout) (figMap : List (ℕ × String)) :
    Except String (List Element) :=
  match elementsOf layout figMap with
  | .error e => .error e
  | .ok es => .ok (List.insertionSort elemRel es)

/-- `PDFProcessor.generate_text`: the text artifact's content - each sorted
element's content followed by two newlines, concatenated. -/
def generate_text (layout : Layout) (figMap : List (ℕ × String)) :
    Except String String :=
  match sortedElements layout figMap with
  | .error e => .error e
  | .ok es => .ok (String.join (es.map (fun e => e.content ++ "\n\n")))

/-! ## Helper lemmas -/

lemma lookupPage_pageNumber {ps : List PageRec} {pg : ℤ} {p : PageRec}
    (h : lookupPage ps pg = some p) : p.pageNumber = pg := by
  have := List.find?_some h
  simpa using this

lemma lookupPage_mem {ps : List PageRec} {pg : ℤ} {p : PageRec}
    (h : lookupPage ps pg = some p) : p ∈ ps := by
  have := List.mem_of_find?_eq_some h
  simpa using this

lemma lookupPage_eq_none {ps : List PageRec} {pg : ℤ} :
    lookupPage ps pg = none ↔ ∀ p ∈ ps, p.pageNumber ≠ pg := by
  simp [lookupPage, List.find?_eq_none]

lemma reconcilePages_getElem? {sp : List PageRec} {imgs : List Img} {dpi : ℚ}
    {i : ℕ} (h : i < imgs.length) :
    (reconcilePages sp imgs dpi)[i]? =
      some (match lookupPage sp ((i : ℤ) + 1) with
            | some p => p
            | none => mkPlaceholder ((i : ℤ) + 1) (imgs.getD i ⟨0, 0⟩) dpi) := by
  simp [reconcilePages, List.getElem?_map, List.getElem?_range h]

/-! ## Claim theorems -/

/-- Claim C5 (status: code bug).  The spec requires a zero-page input to be
signaled as an error, but `fix_pdf` returns normally on zero pages: the
`if out_pages:` guard silently skips writing the corrected document and no
exception is raised. -/
theorem c5_zero_pages_no_error (cfg : PDFConfig) :
    fix_pdf cfg [] = { processed := [], corrected := none } := rfl

/-- Claim C7: per page, a detector failure is non-fatal and leaves the page
unrotated; a reported angle `a` (with `0 ≤ a < 360`, the detector's range)
rotates the page by `(360 - a) % 360` degrees with `expand = true`, where a
zero rotation (angle 0) means the image is left unchanged. -/
theorem c7_osd_rotation (cfg : PDFConfig) (p : PageInput) :
    (∀ e : String, p.osd = .error e →
      fixPage cfg p = { rotation := none,
                        cropBox := cropRect p.gray cfg.white_thr cfg.pad_px })
    ∧ (∀ a : ℤ, p.osd = .ok a → 0 ≤ a → a < 360 →
        (fixPage cfg p).rotation =
          if (360 - a) % 360 = 0 then none
          else some ((360 - a) % 360, true)) := by
  constructor
  · intro e he
    simp [fixPage, osdRotation, he]
  · intro a ha h0 h1
    simp only [fixPage, osdRotation, ha]
    by_cases ha0 : a = 0
    · subst ha0; norm_num
    · rw [if_neg ha0, Int.emod_eq_of_lt (by omega) (by omega), if_neg (by omega)]

/-- Witness for C7 at concrete inputs: a reported angle of 90 rotates by
270 degrees with expansion, and a detector error leaves the page
unrotated. -/
theorem c7_osd_rotation_witness :
    (fixPage ⟨300, 20, 245⟩ ⟨.ok 90, []⟩).rotation = some (270, true)
    ∧ fixPage ⟨300, 20, 245⟩ ⟨.error "TesseractError", []⟩ =
        { rotation := none, cropBox := cropRect [] 245 20 } := by
  constructor
  · have h := (c7_osd_rotation ⟨300, 20, 245⟩ ⟨.ok 90, []⟩).2 90 rfl
      (by norm_num) (by norm_num)
    rw [h]; norm_num
  · exact (c7_osd_rotation ⟨300, 20, 245⟩
      ⟨.error "TesseractError", []⟩).1 "TesseractError" rfl

/-- Claim C8: for a non-empty input, the corrected document exists, has
exactly one page per input page, and its i-th page is the processed form of
the i-th input page. -/
theorem c8_corrected_page_count (cfg : PDFConfig) (inputs : List PageInput)
    (h : inputs ≠ []) :
    ∃ doc : List PageOut,
      (fix_pdf cfg inputs).corrected = some doc
      ∧ doc.length = inputs.length
      ∧ ∀ i : ℕ, doc[i]? = (inputs[i]?).map (fixPage cfg) := by
  have hne : (inputs.map (fixPage cfg)).isEmpty = false := by
    cases inputs with
    | nil => exact absurd rfl h
    | cons a l => rfl
  exact ⟨inputs.map (fixPage cfg), by simp [fix_pdf, hne], by simp,
    fun i => by simp [List.getElem?_map]⟩

/-- Witness for C8 on a concrete one-page input. -/
theorem c8_corrected_page_count_witness :
    ∃ doc : List PageOut,
      (fix_pdf ⟨300, 20, 245⟩ [⟨.ok 0, []⟩]).corrected = some doc
      ∧ doc.length = [(⟨.ok 0, []⟩ : PageInput)].length
      ∧ ∀ i : ℕ, doc[i]? =
          ([(⟨.ok 0, []⟩ : PageInput)][i]?).map (fixPage ⟨300, 20, 245⟩) :=
  c8_corrected_page_count ⟨300, 20, 245⟩ [⟨.ok 0, []⟩] (List.cons_ne_nil _ _)

/-- Claim C1: for any layout-service result and page count `N ≥ 1`, the
reconciled table's page-number sequence is exactly `1, ..., N` (no gaps, no
duplicates); an ordinal present in the service output keeps the service's
record, and a missing ordinal gets a placeholder with angle 0, the page
image's pixel dimensions divided by the dpi, unit `"inch"` and empty
word/line lists. -/
theorem c1_reconciliation (sp : List PageRec) (imgs : List Img) (dpi : ℚ)
    (hN : 1 ≤ imgs.length) :
    ((reconcilePages sp imgs dpi).map (fun p => p.pageNumber)
        = (List.range imgs.length).map (fun i : ℕ => (i : ℤ) + 1))
    ∧ (∀ i : ℕ, i < imgs.length →
        ∀ p : PageRec, lookupPage sp ((i : ℤ) + 1) = some p →
          (reconcilePages sp imgs dpi)[i]? = some p ∧ p ∈ sp
            ∧ p.pageNumber = (i : ℤ) + 1)
    ∧ (∀ i : ℕ, i < imgs.length →
        (∀ p ∈ sp, p.pageNumber ≠ (i : ℤ) + 1) →
        ∀ img : Img, imgs[i]? = some img →
          (reconcilePages sp imgs dpi)[i]? =
            some { pageNumber := (i : ℤ) + 1, angle := 0,
                   width := (img.width : ℚ) / dpi,
                   height := (img.height : ℚ) / dpi,
                   unit := "inch", words := [], lines := [] }) := by
  refine ⟨?_, ?_, ?_⟩
  · unfold reconcilePages
    rw [List.map_map]
    apply List.map_congr_left
    intro i hi
    simp only [Function.comp_apply]
    cases h : lookupPage sp ((i : ℤ) + 1) with
    | none => simp [mkPlaceholder]
    | some p => exact lookupPage_pageNumber h
  · intro i hi p hp
    refine ⟨?_, lookupPage_mem hp, lookupPage_pageNumber hp⟩
    rw [reconcilePages_getElem? hi, hp]
  · intro i hi hmiss img himg
    have hnone : lookupPage sp ((i : ℤ) + 1) = none := lookupPage_eq_none.2 hmiss
    have hgd : imgs.getD i ⟨0, 0⟩ = img := by
      rw [List.getD_eq_getElem?_getD, himg]; rfl
    rw [reconcilePages_getElem? hi, hnone, hgd]
    rfl

/-- Witness for C1: a 2-page run where the service returned only page 1
(with its own geometry) - page 1 keeps the service record, page 2 is the
synthesized placeholder. -/
theorem c1_reconciliation_witness :
    ((reconcilePages [⟨1, 3, 7, 9, "pixel", [], []⟩] [⟨100, 200⟩, ⟨30, 40⟩] 2).map
        (fun p => p.pageNumber) = (List.range 2).map (fun i : ℕ => (i : ℤ) + 1))
    ∧ (reconcilePages [⟨1, 3, 7, 9, "pixel", [], []⟩] [⟨100, 200⟩, ⟨30, 40⟩] 2)[0]?
        = some ⟨1, 3, 7, 9, "pixel", [], []⟩
    ∧ (reconcilePages [⟨1, 3, 7, 9, "pixel", [], []⟩] [⟨100, 200⟩, ⟨30, 40⟩] 2)[1]?
        = some ⟨2, 0, (30 : ℚ) / 2, (40 : ℚ) / 2, "inch", [], []⟩ := by
  obtain ⟨h1, h2, h3⟩ := c1_reconciliation [⟨1, 3, 7, 9, "pixel", [], []⟩]
    [⟨100, 200⟩, ⟨30, 40⟩] 2 (by norm_num)
  refine ⟨h1, ?_, ?_⟩
  · exact (h2 0 (by norm_num) ⟨1, 3, 7, 9, "pixel", [], []⟩ rfl).1
  · exact h3 1 (by norm_num)
      (by intro p hp; rw [List.mem_singleton] at hp; subst hp; decide)
      ⟨30, 40⟩ rfl

/-- Claim C4: if no row and no column is below the whiteness threshold the
page is kept uncropped; when a sub-threshold row and column both exist, the
emitted crop rectangle lies within the page bounds and contains the
un-padded content bounding box (spanned by the first and last sub-threshold
row and column). -/
theorem c4_crop_box (g : List (List ℚ)) (thr : ℚ) (pad : ℕ) :
    (rIdx g thr = [] ∧ cIdx g thr = [] → cropRect g thr pad = none)
    ∧ (∀ r0 rl c0 cl : ℕ,
        (rIdx g thr).head? = some r0 → (rIdx g thr).getLast? = some rl →
        (cIdx g thr).head? = some c0 → (cIdx g thr).getLast? = some cl →
        ∃ x1 y1 x2 y2 : ℤ,
          cropRect g thr pad = some (x1, y1, x2, y2)
          ∧ 0 ≤ x1 ∧ 0 ≤ y1
          ∧ x2 ≤ ((g.headD []).length : ℤ) - 1
          ∧ y2 ≤ (g.length : ℤ) - 1
          ∧ x1 ≤ (c0 : ℤ) ∧ (cl : ℤ) ≤ x2
          ∧ y1 ≤ (r0 : ℤ) ∧ (rl : ℤ) ≤ y2) := by
  constructor
  · rintro ⟨h1, h2⟩
    simp [cropRect, h1, h2]
  · intro r0 rl c0 cl h1 h2 h3 h4
    have hrl : rl < g.length := by
      have hm := List.mem_of_mem_getLast? h2
      rw [rIdx] at hm
      exact List.mem_range.1 (List.mem_of_mem_filter hm)
    have hcl : cl < (g.headD []).length := by
      have hm := List.mem_of_mem_getLast? h4
      rw [cIdx] at hm
      exact List.mem_range.1 (List.mem_of_mem_filter hm)
    refine ⟨max ((c0 : ℤ) - pad) 0, max ((r0 : ℤ) - pad) 0,
            min ((cl : ℤ) + pad) (((g.headD []).length : ℤ) - 1),
            min ((rl : ℤ) + pad) ((g.length : ℤ) - 1),
            ?_, by omega, by omega, by omega, by omega,
            by omega, by omega, by omega, by omega⟩
    unfold cropRect
    rw [h1, h2, h3, h4]

/-- Witness for C4 on a concrete 3x3 page with a single dark pixel at the
center: the crop box exists, stays in bounds and contains the content
bounding box. -/
theorem c4_crop_box_witness :
    ∃ x1 y1 x2 y2 : ℤ,
      cropRect [[250, 250, 250], [250, 0, 250], [250, 250, 250]] 245 20
          = some (x1, y1, x2, y2)
      ∧ 0 ≤ x1 ∧ 0 ≤ y1
      ∧ x2 ≤ (([[250, 250, 250], [(250 : ℚ), 0, 250],
                [250, 250, 250]].headD []).length : ℤ) - 1
      ∧ y2 ≤ (([[250, 250, 250], [(250 : ℚ), 0, 250],
                [250, 250, 250]].length : ℤ)) - 1
      ∧ x1 ≤ (1 : ℤ) ∧ (1 : ℤ) ≤ x2
      ∧ y1 ≤ (1 : ℤ) ∧ (1 : ℤ) ≤ y2 := by
  have h1 : (rIdx [[250, 250, 250], [250, 0, 250], [250, 250, 250]] 245).head?
      = some 1 := by
    norm_num [rIdx, rowMean, listMean, List.range_succ, List.filter_append,
      List.filter]
  have h2 : (rIdx [[250, 250, 250], [250, 0, 250], [250, 250, 250]] 245).getLast?
      = some 1 := by
    norm_num [rIdx, rowMean, listMean, List.range_succ, List.filter_append,
      List.filter]
  have h3 : (cIdx [[250, 250, 250], [250, 0, 250], [250, 250, 250]] 245).head?
      = some 1 := by
    norm_num [cIdx, colMean, listMean, List.range_succ, List.filter_append,
      List.filter]
  have h4 : (cIdx [[250, 250, 250], [250, 0, 250], [250, 250, 250]] 245).getLast?
      = some 1 := by
    norm_num [cIdx, colMean, listMean, List.range_succ, List.filter_append,
      List.filter]
  exact (c4_crop_box [[250, 250, 250], [250, 0, 250], [250, 250, 250]] 245 20).2
    1 1 1 1 h1 h2 h3 h4

lemma figStep_error_of_empty {imgs : List Img} {meta : List PageRec}
    {idx : ℕ} {fig : Fig} {st : FigState} (h : fig.boundingRegions = []) :
    figStep imgs meta idx fig st
      = .error "IndexError: boundingRegions is empty" := by
  simp [figStep, h]

lemma extractFigsAux_isOk_false (imgs : List Img) (meta : List PageRec) :
    ∀ (figs : List Fig) (k : ℕ) (st : FigState),
      (∃ fig ∈ figs, fig.boundingRegions = []) →
      exceptIsOk (extractFigsAux imgs meta k figs st) = false := by
  intro figs
  induction figs with
  | nil =>
    rintro k st ⟨fig, hm, -⟩
    cases hm
  | cons f rest ih =>
    rintro k st ⟨fig, hm, he⟩
    rcases List.mem_cons.1 hm with rfl | hm2
    · simp [extractFigsAux, figStep_error_of_empty he, exceptIsOk]
    · cases hstep : figStep imgs meta k f st with
      | error e => simp [extractFigsAux, hstep, exceptIsOk]
      | ok st2 =>
        simp only [extractFigsAux, hstep]
        exact ih _ _ ⟨fig, hm2, he⟩

/-- Claim C9: a figure entry whose `boundingRegions` list is empty makes
the figure-extraction loop of `analyze_pdf` raise (the `[0]` access is
unguarded), aborting the whole analysis instead of skipping the figure. -/
theorem c9_empty_bounding_regions_abort (layout : Layout) (imgs : List Img)
    (dpi : ℚ) (fig : Fig) (hm : fig ∈ layout.figures)
    (he : fig.boundingRegions = []) :
    exceptIsOk (analyze_pdf layout imgs dpi) = false := by
  have h := extractFigsAux_isOk_false imgs
    (reconcilePages layout.pages imgs dpi) layout.figures 0
    { figMap := [], artifacts := [] } ⟨fig, hm, he⟩
  cases hex : extractFigsAux imgs (reconcilePages layout.pages imgs dpi) 0
      layout.figures { figMap := [], artifacts := [] } with
  | error e => simp [analyze_pdf, extractFigs, hex, exceptIsOk]
  | ok st =>
    rw [hex] at h
    simp [exceptIsOk] at h

/-- Witness for C9: a one-figure layout whose figure has no bounding
region makes `analyze_pdf` fail. -/
theorem c9_empty_bounding_regions_abort_witness :
    exceptIsOk (analyze_pdf ⟨[], [], [⟨[]⟩]⟩ [⟨10, 10⟩] 1) = false :=
  c9_empty_bounding_regions_abort ⟨[], [], [⟨[]⟩]⟩ [⟨10, 10⟩] 1 ⟨[]⟩
    (List.mem_singleton.2 rfl) rfl

/-- Claim C3: for a figure whose first bounding region yields a computed,
clamped crop rectangle, the loop body never raises: it records the artifact
path in the figure map and persists the artifact exactly when the rectangle
has strictly positive width and height, and otherwise leaves both the map
and the artifact list unchanged. -/
theorem c3_artifact_iff_positive_area (imgs : List Img) (meta : List PageRec)
    (idx : ℕ) (fig : Fig) (st : FigState) (region : Region)
    (hr : fig.boundingRegions.head? = some region)
    (x0 y0 x1 y1 : ℤ)
    (hrect : figRect imgs meta region = .ok (x0, y0, x1, y1)) :
    ∃ st2, figStep imgs meta idx fig st = .ok st2
      ∧ (x1 > x0 ∧ y1 > y0 →
          st2.figMap = st.figMap ++ [(idx, mkFigPath region.pageNumber idx)]
          ∧ st2.artifacts = st.artifacts ++ [mkFigPath region.pageNumber idx])
      ∧ (¬(x1 > x0 ∧ y1 > y0) → st2 = st) := by
  simp only [figStep, hr, hrect]
  by_cases hpos : x1 > x0 ∧ y1 > y0
  · rw [if_pos hpos]
    exact ⟨_, rfl, fun _ => ⟨rfl, rfl⟩, fun hn => absurd hpos hn⟩
  · rw [if_neg hpos]
    exact ⟨st, rfl, fun hp => absurd hp hpos, fun _ => rfl⟩

/-- Witness for C3: a concrete figure with a positive-area crop rectangle
is recorded in the map and persisted. -/
theorem c3_artifact_iff_positive_area_witness :
    ∃ st2, figStep [⟨3, 3⟩] [⟨1, 0, 1, 1, "inch", [], []⟩] 0
        ⟨[⟨1, none, [0, 0, 2, 2]⟩]⟩ { figMap := [], artifacts := [] } = .ok st2
      ∧ st2.figMap = [(0, mkFigPath 1 0)]
      ∧ st2.artifacts = [mkFigPath 1 0] := by
  obtain ⟨st2, hok, hpos, -⟩ := c3_artifact_iff_positive_area
    [⟨3, 3⟩] [⟨1, 0, 1, 1, "inch", [], []⟩] 0 ⟨[⟨1, none, [0, 0, 2, 2]⟩]⟩
    { figMap := [], artifacts := [] } ⟨1, none, [0, 0, 2, 2]⟩ rfl 0 0 3 3
    (by norm_num [figRect, resolveMetaWH, lookupPage, evens, odds, listMin,
      listMax, pythonIdx, ratTrunc, List.find?])
  obtain ⟨hmap, hart⟩ := hpos (by norm_num)
  exact ⟨st2, hok, by simpa using hmap, by simpa using hart⟩

lemma reconcilePages_pageNumber {sp : List PageRec} {imgs : List Img}
    {dpi : ℚ} {i : ℕ} (h : i < imgs.length) {r : PageRec}
    (hr : (reconcilePages sp imgs dpi)[i]? = some r) :
    r.pageNumber = (i : ℤ) + 1 := by
  rw [reconcilePages_getElem? h] at hr
  cases hl : lookupPage sp ((i : ℤ) + 1) with
  | none => rw [hl] at hr; cases hr; rfl
  | some p => rw [hl] at hr; cases hr; exact lookupPage_pageNumber hl

/-- Claim C6, amended: after reconciliation, resolving a figure's page
number `pg` against the page-metadata table and the processed page-image
sequence succeeds whenever `1 ≤ pg ≤ N` (the actual page count); the
reconciled table always holds a record whose page number is `pg`.  (The
claim as stated - success for ANY reported page number - is refuted by
`c6_out_of_range_page_counterexample` below.) -/
theorem c6_page_lookups (sp : List PageRec) (imgs : List Img) (dpi : ℚ)
    (pg : ℤ) (h1 : 1 ≤ pg) (h2 : pg ≤ (imgs.length : ℤ)) :
    (∃ img, pythonIdx imgs (pg - 1) = some img)
    ∧ (∃ p, lookupPage (reconcilePages sp imgs dpi) pg = some p
        ∧ p.pageNumber = pg) := by
  have hlt : (pg - 1).toNat < imgs.length := by omega
  constructor
  · refine ⟨imgs.get ⟨(pg - 1).toNat, hlt⟩, ?_⟩
    rw [pythonIdx, if_pos (by omega : (0 : ℤ) ≤ pg - 1)]
    exact List.get?_eq_get hlt
  · have hlen : (reconcilePages sp imgs dpi).length = imgs.length := by
      simp [reconcilePages]
    cases hq : (reconcilePages sp imgs dpi)[(pg - 1).toNat]? with
    | none =>
      exfalso
      rw [List.getElem?_eq_none_iff] at hq
      omega
    | some r =>
      have hpn : r.pageNumber = pg := by
        have := reconcilePages_pageNumber hlt hq
        omega
      have hmem : r ∈ reconcilePages sp imgs dpi := List.getElem?_mem hq
      have hex : ∃ q ∈ (reconcilePages sp imgs dpi).reverse,
          (q.pageNumber == pg) = true :=
        ⟨r, List.mem_reverse.2 hmem, by simp [hpn]⟩
      obtain ⟨p, hp⟩ := Option.isSome_iff_exists.1 (List.find?_isSome.2 hex)
      refine ⟨p, hp, ?_⟩
      have := List.find?_some hp
      simpa using this

/-- Counterexample to C6 as stated: with a single processed page, a figure
whose first bounding region reports page number 2 makes the page-image
lookup fail, and `analyze_pdf` aborts with an exception instead of
succeeding "for any page number the service may report". -/
theorem c6_out_of_range_page_counterexample :
    pythonIdx [(⟨4, 4⟩ : Img)] ((2 : ℤ) - 1) = none
    ∧ exceptIsOk (analyze_pdf ⟨[], [], [⟨[⟨2, none, [0, 0, 1, 1]⟩]⟩]⟩
        [⟨4, 4⟩] 1) = false := by
  constructor
  · rfl
  · norm_num [analyze_pdf, extractFigs, extractFigsAux, figStep, figRect,
      resolveMetaWH, lookupPage, reconcilePages, mkPlaceholder, evens, odds,
      listMin, listMax, pythonIdx, ratTrunc, exceptIsOk, List.find?,
      List.range_succ]
    split_ifs <;> rfl

/-- Witness for the amended C6 on a concrete one-page run. -/
theorem c6_page_lookups_witness :
    (∃ img, pythonIdx [(⟨4, 4⟩ : Img)] ((1 : ℤ) - 1) = some img)
    ∧ (∃ p, lookupPage (reconcilePages [] [(⟨4, 4⟩ : Img)] 1) 1 = some p
        ∧ p.pageNumber = 1) :=
  c6_page_lookups [] [⟨4, 4⟩] 1 1 (by norm_num) (by norm_num)


lemma center_ok_eq {r : Region} {c : ℤ × ℚ × ℚ}
    (h : get_bounding_box_center r = .ok c) :
    c = (r.pageNumber, listMean (odds r.polygon),
         listMean (evens r.polygon)) := by
  simp only [get_bounding_box_center] at h
  split_ifs at h
  exact (Except.ok.inj h).symm

lemma paraElemsAux_sound {ps : List Para} : ∀ {k : ℕ} {es : List Element},
    paraElemsAux k ps = .ok es → ∀ e ∈ es,
    ∃ i p r c, ps[i]? = some p ∧ p.boundingRegions.head? = some r
      ∧ get_bounding_box_center r = .ok c ∧ e = mkParaElem (k + i) p c := by
  induction ps with
  | nil =>
    intro k es h e he
    simp only [paraElemsAux] at h
    cases h
    cases he
  | cons p0 rest ih =>
    intro k es h e he
    simp only [paraElemsAux] at h
    cases hbr : p0.boundingRegions.head? with
    | none =>
      rw [hbr] at h
      dsimp only at h
      obtain ⟨i, p, r, c, h1, h2, h3, h4⟩ := ih h e he
      refine ⟨i + 1, p, r, c, ?_, h2, h3, ?_⟩
      · rw [List.getElem?_cons_succ]
        exact h1
      · rw [h4]
        congr 1
        omega
    | some r0 =>
      rw [hbr] at h
      dsimp only at h
      cases hc : get_bounding_box_center r0 with
      | error err => rw [hc] at h; cases h
      | ok c0 =>
        rw [hc] at h
        dsimp only at h
        cases hrest : paraElemsAux (k + 1) rest with
        | error err => rw [hrest] at h; cases h
        | ok es2 =>
          rw [hrest] at h
          dsimp only at h
          injection h with h
          subst h
          rcases List.mem_cons.1 he with rfl | he2
          · exact ⟨0, p0, r0, c0, List.getElem?_cons_zero, hbr, hc, rfl⟩
          · obtain ⟨i, p, r, c, h1, h2, h3, h4⟩ := ih hrest e he2
            refine ⟨i + 1, p, r, c, ?_, h2, h3, ?_⟩
            · rw [List.getElem?_cons_succ]
              exact h1
            · rw [h4]
              congr 1
              omega

lemma paraElemsAux_complete {ps : List Para} : ∀ {k : ℕ} {es : List Element},
    paraElemsAux k ps = .ok es →
    ∀ i p r, ps[i]? = some p → p.boundingRegions.head? = some r →
      ∃ c, get_bounding_box_center r = .ok c ∧ mkParaElem (k + i) p c ∈ es := by
  induction ps with
  | nil =>
    intro k es h i p r hp hr
    simp at hp
  | cons p0 rest ih =>
    intro k es h i p r hp hr
    simp only [paraElemsAux] at h
    cases i with
    | zero =>
      rw [List.getElem?_cons_zero] at hp
      injection hp with hp
      subst hp
      rw [hr] at h
      dsimp only at h
      cases hc : get_bounding_box_center r with
      | error err => rw [hc] at h; cases h
      | ok c =>
        rw [hc] at h
        dsimp only at h
        cases hrest : paraElemsAux (k + 1) rest with
        | error err => rw [hrest] at h; cases h
        | ok es2 =>
          rw [hrest] at h
          dsimp only at h
          injection h with h
          subst h
          exact ⟨c, rfl, List.mem_cons_self _ _⟩
    | succ i2 =>
      have hp2 : rest[i2]? = some p := by
        rw [List.getElem?_cons_succ] at hp
        exact hp
      cases hbr : p0.boundingRegions.head? with
      | none =>
        rw [hbr] at h
        dsimp only at h
        obtain ⟨c, hc, hm⟩ := ih h i2 p r hp2 hr
        refine ⟨c, hc, ?_⟩
        have he : k + (i2 + 1) = (k + 1) + i2 := by omega
        rw [he]
        exact hm
      | some r0 =>
        rw [hbr] at h
        dsimp only at h
        cases hc0 : get_bounding_box_center r0 with
        | error err => rw [hc0] at h; cases h
        | ok c0 =>
          rw [hc0] at h
          dsimp only at h
          cases hrest : paraElemsAux (k + 1) rest with
          | error err => rw [hrest] at h; cases h
          | ok es2 =>
            rw [hrest] at h
            dsimp only at h
            injection h with h
            subst h
            obtain ⟨c, hc, hm⟩ := ih hrest i2 p r hp2 hr
            refine ⟨c, hc, List.mem_cons_of_mem _ ?_⟩
            have he : k + (i2 + 1) = (k + 1) + i2 := by omega
            rw [he]
            exact hm

lemma figElemsAux_sound {figMap : List (ℕ × String)} {fsl : List Fig} :
    ∀ {k : ℕ} {es : List Element},
    figElemsAux figMap k fsl = .ok es → ∀ e ∈ es,
    ∃ i f r c, fsl[i]? = some f ∧ f.boundingRegions.head? = some r
      ∧ get_bounding_box_center r = .ok c
      ∧ e = mkFigElem figMap (k + i) c := by
  induction fsl with
  | nil =>
    intro k es h e he
    simp only [figElemsAux] at h
    cases h
    cases he
  | cons f0 rest ih =>
    intro k es h e he
    simp only [figElemsAux] at h
    cases hbr : f0.boundingRegions.head? with
    | none =>
      rw [hbr] at h
      dsimp only at h
      obtain ⟨i, f, r, c, h1, h2, h3, h4⟩ := ih h e he
      refine ⟨i + 1, f, r, c, ?_, h2, h3, ?_⟩
      · rw [List.getElem?_cons_succ]
        exact h1
      · rw [h4]
        congr 1
        omega
    | some r0 =>
      rw [hbr] at h
      dsimp only at h
      cases hc : get_bounding_box_center r0 with
      | error err => rw [hc] at h; cases h
      | ok c0 =>
        rw [hc] at h
        dsimp only at h
        cases hrest : figElemsAux figMap (k + 1) rest with
        | error err => rw [hrest] at h; cases h
        | ok es2 =>
          rw [hrest] at h
          dsimp only at h
          injection h with h
          subst h
          rcases List.mem_cons.1 he with rfl | he2
          · exact ⟨0, f0, r0, c0, List.getElem?_cons_zero, hbr, hc, rfl⟩
          · obtain ⟨i, f, r, c, h1, h2, h3, h4⟩ := ih hrest e he2
            refine ⟨i + 1, f, r, c, ?_, h2, h3, ?_⟩
            · rw [List.getElem?_cons_succ]
              exact h1
            · rw [h4]
              congr 1
              omega

lemma figElemsAux_complete {figMap : List (ℕ × String)} {fsl : List Fig} :
    ∀ {k : ℕ} {es : List Element},
    figElemsAux figMap k fsl = .ok es →
    ∀ i f r, fsl[i]? = some f → f.boundingRegions.head? = some r →
      ∃ c, get_bounding_box_center r = .ok c
        ∧ mkFigElem figMap (k + i) c ∈ es := by
  induction fsl with
  | nil =>
    intro k es h i f r hf hr
    simp at hf
  | cons f0 rest ih =>
    intro k es h i f r hf hr
    simp only [figElemsAux] at h
    cases i with
    | zero =>
      rw [List.getElem?_cons_zero] at hf
      injection hf with hf
      subst hf
      rw [hr] at h
      dsimp only at h
      cases hc : get_bounding_box_center r with
      | error err => rw [hc] at h; cases h
      | ok c =>
        rw [hc] at h
        dsimp only at h
        cases hrest : figElemsAux figMap (k + 1) rest with
        | error err => rw [hrest] at h; cases h
        | ok es2 =>
          rw [hrest] at h
          dsimp only at h
          injection h with h
          subst h
          exact ⟨c, rfl, List.mem_cons_self _ _⟩
    | succ i2 =>
      have hf2 : rest[i2]? = some f := by
        rw [List.getElem?_cons_succ] at hf
        exact hf
      cases hbr : f0.boundingRegions.head? with
      | none =>
        rw [hbr] at h
        dsimp only at h
        obtain ⟨c, hc, hm⟩ := ih h i2 f r hf2 hr
        refine ⟨c, hc, ?_⟩
        have he : k + (i2 + 1) = (k + 1) + i2 := by omega
        rw [he]
        exact hm
      | some r0 =>
        rw [hbr] at h
        dsimp only at h
        cases hc0 : get_bounding_box_center r0 with
        | error err => rw [hc0] at h; cases h
        | ok c0 =>
          rw [hc0] at h
          dsimp only at h
          cases hrest : figElemsAux figMap (k + 1) rest with
          | error err => rw [hrest] at h; cases h
          | ok es2 =>
            rw [hrest] at h
            dsimp only at h
            injection h with h
            subst h
            obtain ⟨c, hc, hm⟩ := ih hrest i2 f r hf2 hr
            refine ⟨c, hc, List.mem_cons_of_mem _ ?_⟩
            have he : k + (i2 + 1) = (k + 1) + i2 := by omega
            rw [he]
            exact hm

lemma elementsOf_split {layout : Layout} {figMap : List (ℕ × String)}
    {es : List Element} (h : elementsOf layout figMap = .ok es) :
    ∃ ps fs, paraElemsAux 0 layout.paragraphs = .ok ps
      ∧ figElemsAux figMap 0 layout.figures = .ok fs ∧ es = ps ++ fs := by
  simp only [elementsOf] at h
  cases h1 : paraElemsAux 0 layout.paragraphs with
  | error e => rw [h1] at h; cases h
  | ok ps =>
    rw [h1] at h
    dsimp only at h
    cases h2 : figElemsAux figMap 0 layout.figures with
    | error e => rw [h2] at h; cases h
    | ok fs =>
      rw [h2] at h
      dsimp only at h
      injection h with h
      exact ⟨ps, fs, rfl, rfl, h.symm⟩

/-- Claim C2: when element collection succeeds, `generate_text` serializes
exactly the paragraph/figure elements that have a bounding region (one per
such source entry, none for entries without a region), keyed by
(page ordinal, mean of the first region polygon's y-values, mean of its
x-values), as blank-line-separated blocks of their contents in an order
that is non-decreasing in this key at every adjacent pair. -/
theorem c2_reading_order (layout : Layout) (figMap : List (ℕ × String))
    (es : List Element) (hes : elementsOf layout figMap = .ok es) :
    generate_text layout figMap
        = .ok (String.join ((List.insertionSort elemRel es).map
            (fun e => e.content ++ "\n\n")))
    ∧ (List.insertionSort elemRel es).Perm es
    ∧ List.Sorted elemRel (List.insertionSort elemRel es)
    ∧ (∀ e ∈ es,
        (e.kind = ElemKind.paragraph →
          ∃ i p r, layout.paragraphs[i]? = some p
            ∧ p.boundingRegions.head? = some r
            ∧ e.index = i ∧ e.page = r.pageNumber
            ∧ e.yCenter = listMean (odds r.polygon)
            ∧ e.xCenter = listMean (evens r.polygon)
            ∧ e.content = p.content)
        ∧ (e.kind = ElemKind.figure →
          ∃ i f r, layout.figures[i]? = some f
            ∧ f.boundingRegions.head? = some r
            ∧ e.index = i ∧ e.page = r.pageNumber
            ∧ e.yCenter = listMean (odds r.polygon)
            ∧ e.xCenter = listMean (evens r.polygon)))
    ∧ (∀ i p r, layout.paragraphs[i]? = some p →
        p.boundingRegions.head? = some r →
        ∃ e ∈ es, e.kind = ElemKind.paragraph ∧ e.index = i)
    ∧ (∀ i f r, layout.figures[i]? = some f →
        f.boundingRegions.head? = some r →
        ∃ e ∈ es, e.kind = ElemKind.figure ∧ e.index = i) := by
  obtain ⟨ps, fs, hps, hfs, rfl⟩ := elementsOf_split hes
  refine ⟨?_, List.perm_insertionSort _ _, List.sorted_insertionSort _ _,
    ?_, ?_, ?_⟩
  · simp [generate_text, sortedElements, hes]
  · intro e he
    constructor
    · intro hk
      rcases List.mem_append.1 he with hpe | hfe
      · obtain ⟨i, p, r, c, h1, h2, h3, h4⟩ := paraElemsAux_sound hps e hpe
        have hc := center_ok_eq h3
        subst hc
        subst h4
        exact ⟨i, p, r, h1, h2, by simp [mkParaElem], by simp [mkParaElem],
          by simp [mkParaElem], by simp [mkParaElem], by simp [mkParaElem]⟩
      · obtain ⟨i, f, r, c, h1, h2, h3, h4⟩ := figElemsAux_sound hfs e hfe
        subst h4
        simp [mkFigElem] at hk
    · intro hk
      rcases List.mem_append.1 he with hpe | hfe
      · obtain ⟨i, p, r, c, h1, h2, h3, h4⟩ := paraElemsAux_sound hps e hpe
        subst h4
        simp [mkParaElem] at hk
      · obtain ⟨i, f, r, c, h1, h2, h3, h4⟩ := figElemsAux_sound hfs e hfe
        have hc := center_ok_eq h3
        subst hc
        subst h4
        exact ⟨i, f, r, h1, h2, by simp [mkFigElem], by simp [mkFigElem],
          by simp [mkFigElem], by simp [mkFigElem]⟩
  · intro i p r h1 h2
    obtain ⟨c, hc, hm⟩ := paraElemsAux_complete hps i p r h1 h2
    exact ⟨mkParaElem (0 + i) p c, List.mem_append_left _ hm, rfl,
      by simp [mkParaElem]⟩
  · intro i f r h1 h2
    obtain ⟨c, hc, hm⟩ := figElemsAux_complete hfs i f r h1 h2
    exact ⟨mkFigElem figMap (0 + i) c, List.mem_append_right _ hm, rfl,
      by simp [mkFigElem]⟩

/-- Claim C10: a figure that has a bounding region but no recorded artifact
(its index is absent from the figure-path map) still contributes a block at
its sorted position, with content exactly `"[FIGURE: ]"` (empty path). -/
theorem c10_unpersisted_figure_marker (layout : Layout)
    (figMap : List (ℕ × String)) (es : List Element) (i : ℕ) (f : Fig)
    (r : Region) (hes : elementsOf layout figMap = .ok es)
    (hf : layout.figures[i]? = some f)
    (hr : f.boundingRegions.head? = some r)
    (hnone : figPathLookup figMap i = none) :
    generate_text layout figMap
        = .ok (String.join ((List.insertionSort elemRel es).map
            (fun e => e.content ++ "\n\n")))
    ∧ ∃ e ∈ List.insertionSort elemRel es,
        e.kind = ElemKind.figure ∧ e.index = i ∧ e.content = "[FIGURE: ]"
        ∧ (e.content ++ "\n\n") ∈ (List.insertionSort elemRel es).map
            (fun e2 => e2.content ++ "\n\n") := by
  obtain ⟨ps, fs, hps, hfs, rfl⟩ := elementsOf_split hes
  constructor
  · simp [generate_text, sortedElements, hes]
  · obtain ⟨c, hc, hm⟩ := figElemsAux_complete hfs i f r hf hr
    have hmem : mkFigElem figMap (0 + i) c ∈ ps ++ fs :=
      List.mem_append_right _ hm
    have hsort : mkFigElem figMap (0 + i) c
        ∈ List.insertionSort elemRel (ps ++ fs) :=
      (List.perm_insertionSort elemRel (ps ++ fs)).mem_iff.2 hmem
    have hcontent : (mkFigElem figMap (0 + i) c).content = "[FIGURE: ]" := by
      simp [mkFigElem, hnone]
    refine ⟨mkFigElem figMap (0 + i) c, hsort, rfl, by simp [mkFigElem],
      hcontent, ?_⟩
    exact List.mem_map_of_mem (fun e2 => e2.content ++ "\n\n") hsort

/-- Witness for C2 on a concrete layout with one paragraph (vertical
center 3) and one figure (vertical center 1) on page 1. -/
theorem c2_reading_order_witness :
    generate_text ⟨[], [⟨"Hello", [⟨1, none, [0, 2, 2, 4]⟩]⟩],
        [⟨[⟨1, none, [0, 0, 2, 2]⟩]⟩]⟩ []
      = .ok (String.join ((List.insertionSort elemRel
          [⟨ElemKind.paragraph, 0, 1, 3, 1, "Hello"⟩,
           ⟨ElemKind.figure, 0, 1, 1, 1, "[FIGURE: ]"⟩]).map
            (fun e => e.content ++ "\n\n")))
    ∧ (List.insertionSort elemRel
        [⟨ElemKind.paragraph, 0, 1, 3, 1, "Hello"⟩,
         ⟨ElemKind.figure, 0, 1, 1, 1, "[FIGURE: ]"⟩]).Perm
        [⟨ElemKind.paragraph, 0, 1, 3, 1, "Hello"⟩,
         ⟨ElemKind.figure, 0, 1, 1, 1, "[FIGURE: ]"⟩]
    ∧ List.Sorted elemRel (List.insertionSort elemRel
        [⟨ElemKind.paragraph, 0, 1, 3, 1, "Hello"⟩,
         ⟨ElemKind.figure, 0, 1, 1, 1, "[FIGURE: ]"⟩]) := by
  obtain ⟨h1, h2, h3, -, -, -⟩ := c2_reading_order
    ⟨[], [⟨"Hello", [⟨1, none, [0, 2, 2, 4]⟩]⟩],
     [⟨[⟨1, none, [0, 0, 2, 2]⟩]⟩]⟩ []
    [⟨ElemKind.paragraph, 0, 1, 3, 1, "Hello"⟩,
     ⟨ElemKind.figure, 0, 1, 1, 1, "[FIGURE: ]"⟩]
    (by norm_num [elementsOf, paraElemsAux, figElemsAux,
      get_bounding_box_center, evens, odds, listMean, mkParaElem, mkFigElem,
      figPathLookup]; rfl)
  exact ⟨h1, h2, h3⟩

/-- Witness for C10 on the same concrete layout with an empty figure-path
map: the figure's block is the empty marker. -/
theorem c10_unpersisted_figure_marker_witness :
    generate_text ⟨[], [⟨"Hello", [⟨1, none, [0, 2, 2, 4]⟩]⟩],
        [⟨[⟨1, none, [0, 0, 2, 2]⟩]⟩]⟩ []
      = .ok (String.join ((List.insertionSort elemRel
          [⟨ElemKind.paragraph, 0, 1, 3, 1, "Hello"⟩,
           ⟨ElemKind.figure, 0, 1, 1, 1, "[FIGURE: ]"⟩]).map
            (fun e => e.content ++ "\n\n")))
    ∧ ∃ e ∈ List.insertionSort elemRel
          [⟨ElemKind.paragraph, 0, 1, 3, 1, "Hello"⟩,
           ⟨ElemKind.figure, 0, 1, 1, 1, "[FIGURE: ]"⟩],
        e.kind = ElemKind.figure ∧ e.index = 0 ∧ e.content = "[FIGURE: ]"
        ∧ (e.content ++ "\n\n") ∈ (List.insertionSort elemRel
            [⟨ElemKind.paragraph, 0, 1, 3, 1, "Hello"⟩,
             ⟨ElemKind.figure, 0, 1, 1, 1, "[FIGURE: ]"⟩]).map
              (fun e2 => e2.content ++ "\n\n") :=
  c10_unpersisted_figure_marker
    ⟨[], [⟨"Hello", [⟨1, none, [0, 2, 2, 4]⟩]⟩],
     [⟨[⟨1, none, [0, 0, 2, 2]⟩]⟩]⟩ []
    [⟨ElemKind.paragraph, 0, 1, 3, 1, "Hello"⟩,
     ⟨ElemKind.figure, 0, 1, 1, 1, "[FIGURE: ]"⟩]
    0 ⟨[⟨1, none, [0, 0, 2, 2]⟩]⟩ ⟨1, none, [0, 0, 2, 2]⟩
    (by norm_num [elementsOf, paraElemsAux, figElemsAux,
      get_bounding_box_center, evens, odds, listMean, mkParaElem, mkFigElem,
      figPathLookup]; rfl)
    rfl rfl rfl
